import Mathlib

/-!
Shallow embedding of the quiz application in src/quizLit.py.

The pure logic (question selection, scoring, session transitions) is
translated directly.  The Streamlit session dictionary becomes the
`SessionState` structure.  Each `random.shuffle` call site is one component
of a `Shuffles` record of list transformers; the predicate `Shuffles.Fair`
records the semantics of shuffling, namely that each component permutes its
input.  Database loading and widget rendering are outside the embedded core:
`prepare_questions` receives the two already-loaded pools as arguments, and
the `st.error` calls are mirrored by Boolean companion definitions.
Python list indexing raises on out-of-range indices, so `answer_question`
returns an `Option`: `none` models the `IndexError` path.
-/

/-- The `Question` dataclass of quizLit.py (line 33). -/
structure Question where
  id : Int
  numero : Int
  enunciado : String
  alternativa_a : String
  alternativa_b : String
  alternativa_c : String
  alternativa_d : String
  fonte : String
  gabarito : String
deriving DecidableEq

/-- The `PerformanceLevel` enum of quizLit.py (line 56). -/
inductive PerformanceLevel where
  | EXCELLENT
  | GOOD
  | NEEDS_IMPROVEMENT
deriving DecidableEq

/-- `Config.EXCELLENT_THRESHOLD = 70` (quizLit.py line 22). -/
def excellentThreshold : ℚ := 70

/-- `Config.GOOD_THRESHOLD = 50` (quizLit.py line 23). -/
def goodThreshold : ℚ := 50

/-- `PerformanceEvaluator.evaluate_performance` (quizLit.py lines 132-150).
Python computes the percentage with float division; the values involved are
tiny integers divided by the question count, for which exact rational
arithmetic gives the same comparisons, so the percentage is embedded in ℚ. -/
def evaluate_performance (correct_answers total_questions : Nat) :
    ℚ × PerformanceLevel × String :=
  if total_questions = 0 then
    (0, PerformanceLevel.NEEDS_IMPROVEMENT, "Nenhuma questão respondida")
  else
    let percentage : ℚ := ((correct_answers : ℚ) / (total_questions : ℚ)) * 100
    if percentage ≥ excellentThreshold then
      (percentage, PerformanceLevel.EXCELLENT, "🎉 Parabéns! Excelente desempenho!")
    else if percentage ≥ goodThreshold then
      (percentage, PerformanceLevel.GOOD, "👍 Bom trabalho! Continue estudando!")
    else
      (percentage, PerformanceLevel.NEEDS_IMPROVEMENT, "📚 Continue estudando para melhorar!")

/-- One list transformer per `random.shuffle` call site in
`QuestionManager.prepare_questions` (quizLit.py lines 109, 114, 122, 125). -/
structure Shuffles where
  shuffle1 : List Question → List Question
  shuffle2 : List Question → List Question
  shuffle3 : List Question → List Question
  shuffle4 : List Question → List Question

/-- Semantics of `random.shuffle`: every component permutes its input. -/
def Shuffles.Fair (sh : Shuffles) : Prop :=
  (∀ l, (sh.shuffle1 l).Perm l) ∧ (∀ l, (sh.shuffle2 l).Perm l) ∧
    (∀ l, (sh.shuffle3 l).Perm l) ∧ (∀ l, (sh.shuffle4 l).Perm l)

/-- A pool after the in-place `random.shuffle` that quizLit.py applies only
when the pool is non-empty (the `if specific_questions:` truth test). -/
def shuffled_pool (shuffle : List Question → List Question)
    (pool : List Question) : List Question :=
  if pool = [] then pool else shuffle pool

/-- The slice `specific_questions[:num_specific]` taken in quizLit.py lines
108-111, where `num_specific = int(total_questions * 0.6)`.  For every quiz
size the UI offers (10, 20, 30, 40, 50) the float expression
`int(total_questions * 0.6)` evaluates to exactly `3 * total / 5`. -/
def specific_slice (sh : Shuffles) (total : Nat) (S : List Question) :
    List Question :=
  if S = [] then [] else (sh.shuffle1 S).take (3 * total / 5)

/-- The slice `general_questions[:num_general]` appended in quizLit.py lines
113-117, where `num_general = total_questions - len(available_questions)`
and the extend only happens when `num_general > 0`. -/
def general_slice (sh : Shuffles) (total : Nat) (S G : List Question) :
    List Question :=
  if G = [] then []
  else if 0 < total - (specific_slice sh total S).length then
    (sh.shuffle2 G).take (total - (specific_slice sh total S).length)
  else []

/-- `available_questions` as built by the ratio-based draw of quizLit.py
lines 107-117, before the fallback check. -/
def ratio_selection (sh : Shuffles) (total : Nat) (S G : List Question) :
    List Question :=
  specific_slice sh total S ++ general_slice sh total S G

/-- `QuestionManager.prepare_questions` (quizLit.py lines 97-126), with the
two loaded pools passed in instead of read from SQLite. -/
def prepare_questions (sh : Shuffles) (total_questions : Nat)
    (specific_questions general_questions : List Question) : List Question :=
  if specific_questions = [] ∧ general_questions = [] then []
  else
    let available := ratio_selection sh total_questions specific_questions general_questions
    let all_questions :=
      shuffled_pool sh.shuffle1 specific_questions ++
        shuffled_pool sh.shuffle2 general_questions
    let selected :=
      if available.length < total_questions then
        (sh.shuffle3 all_questions).take total_questions
      else available
    sh.shuffle4 selected

/-- Mirrors the `st.error` call of quizLit.py line 103: it fires exactly
when both pools are empty. -/
def prepare_shows_error (S G : List Question) : Bool :=
  S.isEmpty && G.isEmpty

/-- One entry of `st.session_state.user_answers`, the dictionary appended in
quizLit.py lines 220-225. -/
structure AnswerRecord where
  question : Question
  user_answer : String
  correct_answer : String
  is_correct : Bool
deriving DecidableEq

/-- The Streamlit session dictionary (quizLit.py lines 154-173). -/
structure SessionState where
  quiz_started : Bool
  questions : List Question
  current_question : Nat
  correct_answers : Nat
  user_answers : List AnswerRecord
  quiz_finished : Bool
  question_answered : Bool
  last_user_answer : Option String
  last_answer_correct : Option Bool
deriving DecidableEq

/-- The default session values set by quizLit.py lines 154-173. -/
def initial_state : SessionState :=
  { quiz_started := false
    questions := []
    current_question := 0
    correct_answers := 0
    user_answers := []
    quiz_finished := false
    question_answered := false
    last_user_answer := none
    last_answer_correct := none }

/-- `reset_quiz` (quizLit.py lines 176-186): every field is reassigned its
default value. -/
def reset_quiz (_s : SessionState) : SessionState :=
  { quiz_started := false
    questions := []
    current_question := 0
    correct_answers := 0
    user_answers := []
    quiz_finished := false
    question_answered := false
    last_user_answer := none
    last_answer_correct := none }

/-- The state-updating part of `start_quiz` (quizLit.py lines 189-206), with
the prepared question list passed in: when it is empty the function returns
early after `st.error`, leaving the state untouched. -/
def start_quiz (questions : List Question) (s : SessionState) : SessionState :=
  if questions = [] then s
  else
    { quiz_started := true
      questions := questions
      current_question := 0
      correct_answers := 0
      user_answers := []
      quiz_finished := false
      question_answered := false
      last_user_answer := none
      last_answer_correct := none }

/-- Mirrors the `st.error` call of quizLit.py line 195: it fires exactly
when `prepare_questions` produced no questions. -/
def start_quiz_shows_error (questions : List Question) : Bool :=
  questions.isEmpty

/-- `start_quiz` composed with `prepare_questions`, as quizLit.py lines
191-192 do. -/
def start_quiz_full (sh : Shuffles) (S G : List Question) (total : Nat)
    (s : SessionState) : SessionState :=
  start_quiz (prepare_questions sh total S G) s

/-- `answer_question` (quizLit.py lines 209-229).  The unchecked indexing
`st.session_state.questions[st.session_state.current_question]` is modelled
with `none` for the Python `IndexError` path. -/
def answer_question (selected_answer : String) (s : SessionState) :
    Option SessionState :=
  if s.quiz_finished || s.question_answered then some s
  else
    match s.questions[s.current_question]? with
    | none => none
    | some current_q =>
      let is_correct : Bool := decide (selected_answer = current_q.gabarito)
      some { s with
        correct_answers :=
          if is_correct then s.correct_answers + 1 else s.correct_answers
        user_answers := s.user_answers ++
          [{ question := current_q
             user_answer := selected_answer
             correct_answer := current_q.gabarito
             is_correct := is_correct }]
        question_answered := true
        last_user_answer := some selected_answer
        last_answer_correct := some is_correct }

/-- `next_question` (quizLit.py lines 232-240). -/
def next_question (s : SessionState) : SessionState :=
  let s1 := { s with
    current_question := s.current_question + 1
    question_answered := false
    last_user_answer := none
    last_answer_correct := none }
  if s1.questions.length ≤ s1.current_question then
    { s1 with quiz_finished := true }
  else s1

/-- The four operations the presentation layer can trigger.  `start` carries
the list produced by `prepare_questions` for whatever pools and shuffles the
run used, so every concrete run of the application is covered. -/
inductive QuizAction where
  | start (questions : List Question)
  | answer (letter : String)
  | next
  | reset

/-- One presentation-layer trigger applied to the session. -/
def step : QuizAction → SessionState → Option SessionState
  | QuizAction.start qs, s => some (start_quiz qs s)
  | QuizAction.answer a, s => answer_question a s
  | QuizAction.next, s => some (next_question s)
  | QuizAction.reset, s => some (reset_quiz s)

/-- Run a sequence of triggers from a given state; `none` once any step
raises. -/
def run_from (s : SessionState) : List QuizAction → Option SessionState
  | [] => some s
  | a :: rest =>
    match step a s with
    | none => none
    | some s1 => run_from s1 rest

/-- States reachable from the fresh session by some sequence of triggers. -/
def Reachable (s : SessionState) : Prop :=
  ∃ acts, run_from initial_state acts = some s

/-- Session invariant: the position is in bounds while the quiz is running,
the correct counter agrees with the answer log, and every log entry stores
the exact-string-equality verdict for its question. -/
def SessionInv (s : SessionState) : Prop :=
  (s.quiz_started = true → s.quiz_finished = false →
    s.current_question < s.questions.length) ∧
  s.correct_answers = s.user_answers.countP (fun r => r.is_correct) ∧
  (∀ r ∈ s.user_answers,
    r.is_correct = decide (r.user_answer = r.question.gabarito) ∧
    r.correct_answer = r.question.gabarito)

/-- Identity shuffles, used to instantiate theorems on concrete inputs. -/
def idShuffles : Shuffles :=
  { shuffle1 := fun l => l
    shuffle2 := fun l => l
    shuffle3 := fun l => l
    shuffle4 := fun l => l }

/-- A concrete question with a chosen id and answer key. -/
def mkQ (n : Int) (g : String) : Question :=
  { id := n
    numero := n
    enunciado := "enunciado"
    alternativa_a := "A"
    alternativa_b := "B"
    alternativa_c := "C"
    alternativa_d := "D"
    fonte := "fonte"
    gabarito := g }

/-- A started, unanswered one-question session. -/
def exUnanswered : SessionState :=
  { quiz_started := true
    questions := [mkQ 1 ("a")]
    current_question := 0
    correct_answers := 0
    user_answers := []
    quiz_finished := false
    question_answered := false
    last_user_answer := none
    last_answer_correct := none }

/-- The same session with the current question already answered. -/
def exAnswered : SessionState :=
  { exUnanswered with question_answered := true }

/-- The same session after the quiz finished. -/
def exFinished : SessionState :=
  { exUnanswered with current_question := 1, quiz_finished := true }

/-- Six distinct specific-pool questions for concrete instantiations. -/
def sixSpecific : List Question :=
  [mkQ 1 ("a"), mkQ 2 ("a"), mkQ 3 ("a"), mkQ 4 ("a"), mkQ 5 ("a"), mkQ 6 ("a")]

/-- Four distinct general-pool questions for concrete instantiations. -/
def fourGeneral : List Question :=
  [mkQ 7 ("b"), mkQ 8 ("b"), mkQ 9 ("b"), mkQ 10 ("b")]

/-! ### Helper lemmas -/

theorem idShuffles_fair : idShuffles.Fair :=
  ⟨fun l => List.Perm.refl l, fun l => List.Perm.refl l,
    fun l => List.Perm.refl l, fun l => List.Perm.refl l⟩

/-! ### Claim C4: scorer -/

/-- Claim C4: `evaluate_performance C T` returns percentage P = 100·C/T
(and P = 0 when T = 0, with no division fault), with the tier determined by
non-overlapping thresholds evaluated high to low: P ≥ 70 yields EXCELLENT,
50 ≤ P < 70 yields GOOD, P < 50 yields NEEDS_IMPROVEMENT; T = 0 always
yields NEEDS_IMPROVEMENT with a distinct no-questions-answered message. -/
theorem evaluate_performance_tiers (C T : Nat) :
    (evaluate_performance C T).1 =
      (if T = 0 then 0 else 100 * (C : ℚ) / (T : ℚ)) ∧
    ((evaluate_performance C T).1 ≥ 70 →
      (evaluate_performance C T).2.1 = PerformanceLevel.EXCELLENT) ∧
    (50 ≤ (evaluate_performance C T).1 ∧ (evaluate_performance C T).1 < 70 →
      (evaluate_performance C T).2.1 = PerformanceLevel.GOOD) ∧
    ((evaluate_performance C T).1 < 50 →
      (evaluate_performance C T).2.1 = PerformanceLevel.NEEDS_IMPROVEMENT) ∧
    (T = 0 →
      (evaluate_performance C T).2.1 = PerformanceLevel.NEEDS_IMPROVEMENT ∧
      (evaluate_performance C T).2.2 = "Nenhuma questão respondida") ∧
    (T ≠ 0 → (evaluate_performance C T).2.2 ≠ "Nenhuma questão respondida") := by
  by_cases hT : T = 0
  · subst hT
    refine ⟨by simp [evaluate_performance], ?_, ?_, ?_, ?_, ?_⟩
    · intro h
      simp [evaluate_performance] at h
      norm_num at h
    · intro h
      simp [evaluate_performance] at h
      norm_num at h
    · intro _
      simp [evaluate_performance]
    · intro _
      exact ⟨by simp [evaluate_performance], by simp [evaluate_performance]⟩
    · intro h
      exact absurd rfl h
  · have h100 : ((C : ℚ) / (T : ℚ)) * 100 = 100 * (C : ℚ) / (T : ℚ) := by ring
    simp only [evaluate_performance, excellentThreshold, goodThreshold,
      if_neg hT, h100]
    split_ifs with h1 h2
    · refine ⟨rfl, fun _ => rfl, ?_, ?_, ?_, ?_⟩
      · intro h
        exact absurd h1 (not_le.mpr h.2)
      · intro h
        exact absurd h1 (not_le.mpr (by linarith))
      · intro h
        exact absurd h hT
      · intro _
        simp
    · refine ⟨rfl, ?_, fun _ => rfl, ?_, ?_, ?_⟩
      · intro h
        exact absurd h h1
      · intro h
        exact absurd h2 (not_le.mpr h)
      · intro h
        exact absurd h hT
      · intro _
        simp
    · push_neg at h1 h2
      refine ⟨rfl, ?_, ?_, fun _ => rfl, ?_, ?_⟩
      · intro h
        linarith
      · intro h
        linarith [h.1]
      · intro h
        exact absurd h hT
      · intro _
        simp

/-- Concrete check of Claim C4 at C = 7, T = 10: the percentage is 70 and
the tier is EXCELLENT. -/
theorem evaluate_performance_tiers_witness :
    (evaluate_performance 7 10).2.1 = PerformanceLevel.EXCELLENT := by
  have h := evaluate_performance_tiers 7 10
  exact h.2.1 (by rw [h.1]; norm_num)

/-! ### Claim C8: restart -/

/-- Claim C8: from every Finished session state, `reset_quiz` returns the
session to NotStarted with an empty question list, an empty answer log,
zero correct-count, position index 0, and all per-question flags cleared. -/
theorem reset_quiz_returns_initial (s : SessionState)
    (h : s.quiz_finished = true) :
    reset_quiz s = initial_state ∧
    (reset_quiz s).quiz_started = false ∧
    (reset_quiz s).questions = [] ∧
    (reset_quiz s).user_answers = [] ∧
    (reset_quiz s).correct_answers = 0 ∧
    (reset_quiz s).current_question = 0 ∧
    (reset_quiz s).quiz_finished = false ∧
    (reset_quiz s).question_answered = false ∧
    (reset_quiz s).last_user_answer = none ∧
    (reset_quiz s).last_answer_correct = none :=
  ⟨rfl, rfl, rfl, rfl, rfl, rfl, rfl, rfl, rfl, rfl⟩

/-- Concrete check of Claim C8 at a finished one-question session. -/
theorem reset_quiz_returns_initial_witness :
    reset_quiz exFinished = initial_state :=
  (reset_quiz_returns_initial exFinished (by decide)).1

/-! ### Claim C6: both pools empty -/

/-- Claim C6: with both pools empty, `prepare_questions` returns the empty
sequence, and `start_quiz` called in NotStarted leaves the session at
NotStarted (quiz not started, no questions, position 0) while the error
companion signals the user-facing message instead of a crash. -/
theorem empty_pools_start_quiz_unchanged (sh : Shuffles) (N : Nat)
    (s : SessionState) (h : s.quiz_started = false ∧ s.questions = [] ∧
      s.current_question = 0) :
    prepare_questions sh N [] [] = [] ∧
    start_quiz_full sh [] [] N s = s ∧
    (start_quiz_full sh [] [] N s).quiz_started = false ∧
    (start_quiz_full sh [] [] N s).questions = [] ∧
    (start_quiz_full sh [] [] N s).current_question = 0 ∧
    prepare_shows_error [] [] = true ∧
    start_quiz_shows_error (prepare_questions sh N [] []) = true := by
  have hp : prepare_questions sh N [] [] = [] := by
    simp [prepare_questions]
  have hs : start_quiz_full sh [] [] N s = s := by
    simp [start_quiz_full, hp, start_quiz]
  exact ⟨hp, hs, hs ▸ h.1, hs ▸ h.2.1, hs ▸ h.2.2, rfl, by simp [hp]; rfl⟩

/-- Concrete check of Claim C6 at the fresh session with the identity
shuffles. -/
theorem empty_pools_start_quiz_unchanged_witness :
    start_quiz_full idShuffles [] [] 10 initial_state = initial_state :=
  (empty_pools_start_quiz_unchanged idShuffles 10 initial_state
    ⟨rfl, rfl, rfl⟩).2.1

/-! ### Claim C5: submit is guarded and idempotent -/

/-- Claim C5: submitting on an already-answered or finished session is a
no-op, and whenever a submission succeeds, an immediate second submission
changes nothing, so two submissions in a row record at most one answer and
increment the correct-count at most once; a first successful submission on
an unanswered running question records exactly one answer. -/
theorem answer_question_idempotent_guard (a b : String) (s s' : SessionState)
    (h : answer_question a s = some s') :
    answer_question b s' = some s' ∧
    ((s.quiz_finished = true ∨ s.question_answered = true) →
      answer_question b s = some s) ∧
    ((s.quiz_finished = true ∨ s.question_answered = true) → s' = s) ∧
    s'.user_answers.length ≤ s.user_answers.length + 1 ∧
    s'.correct_answers ≤ s.correct_answers + 1 ∧
    (s.quiz_finished = false → s.question_answered = false →
      s'.user_answers.length = s.user_answers.length + 1) := by
  by_cases hg : (s.quiz_finished || s.question_answered) = true
  · rw [answer_question, if_pos hg] at h
    obtain rfl : s = s' := by injection h
    refine ⟨?_, ?_, fun _ => rfl, Nat.le_succ _, Nat.le_succ _, ?_⟩
    · rw [answer_question, if_pos hg]
    · intro _
      rw [answer_question, if_pos hg]
    · intro h1 h2
      rw [h1, h2] at hg
      simp at hg
  · rw [answer_question, if_neg hg] at h
    cases hq : s.questions[s.current_question]? with
    | none =>
      rw [hq] at h
      simp at h
    | some q =>
      rw [hq] at h
      simp only [Option.some.injEq] at h
      subst h
      refine ⟨?_, ?_, ?_, ?_, ?_, ?_⟩
      · rw [answer_question]
        simp
      · intro hc
        rcases hc with hc | hc <;> simp [hc] at hg
      · intro hc
        rcases hc with hc | hc <;> simp [hc] at hg
      · simp
      · split <;> simp
      · intro _ _
        simp

/-- Concrete check of Claim C5: submitting again on an already-answered
session leaves it untouched. -/
theorem answer_question_idempotent_guard_witness :
    answer_question ("b") exAnswered = some exAnswered :=
  (answer_question_idempotent_guard ("a") ("b") exAnswered exAnswered
    (by decide)).1

/-! ### Claim C2: advance is not guarded by the orchestrator -/

/-- Claim C2 fails on the code: `next_question` has no state guard, so
calling it while the current question is unanswered, or after the quiz is
finished, still changes the session (the position index moves). -/
theorem next_question_not_ignored_counterexample :
    exUnanswered.question_answered = false ∧
    exUnanswered.quiz_finished = false ∧
    next_question exUnanswered ≠ exUnanswered ∧
    exFinished.quiz_finished = true ∧
    next_question exFinished ≠ exFinished := by
  refine ⟨rfl, rfl, ?_, rfl, ?_⟩ <;> decide

/-- Claim C2 amended: `next_question` advances unconditionally in every
state, unanswered or finished included: it increments the position index,
clears the answered flag and the last-answer fields, marks the quiz
finished once the new position reaches the question count (otherwise
leaving the finished flag as it was), and never changes the question list,
the answer log, the correct-count or the started flag.  Protection against
invalid advances lives in the presentation layer, which only renders the
advance button while the current question is answered. -/
theorem next_question_unconditional_advance (s : SessionState) :
    (next_question s).current_question = s.current_question + 1 ∧
    (next_question s).question_answered = false ∧
    (next_question s).last_user_answer = none ∧
    (next_question s).last_answer_correct = none ∧
    (next_question s).questions = s.questions ∧
    (next_question s).user_answers = s.user_answers ∧
    (next_question s).correct_answers = s.correct_answers ∧
    (next_question s).quiz_started = s.quiz_started ∧
    (next_question s).quiz_finished =
      (s.quiz_finished ||
        decide (s.questions.length ≤ s.current_question + 1)) := by
  unfold next_question
  by_cases hc : s.questions.length ≤ s.current_question + 1
  · simp [hc]
  · simp [hc]

/-! ### Session invariant and reachability -/

theorem sessionInv_initial : SessionInv initial_state := by
  refine ⟨?_, rfl, ?_⟩
  · intro h
    simp [initial_state] at h
  · intro r hr
    simp [initial_state] at hr

theorem sessionInv_start (qs : List Question) (s : SessionState)
    (h : SessionInv s) : SessionInv (start_quiz qs s) := by
  unfold start_quiz
  split
  · exact h
  · rename_i hqs
    refine ⟨?_, rfl, ?_⟩
    · intro _ _
      simpa using List.length_pos.mpr hqs
    · intro r hr
      simp at hr

theorem sessionInv_answer (a : String) (s s' : SessionState)
    (h : SessionInv s) (hs : answer_question a s = some s') :
    SessionInv s' := by
  by_cases hg : (s.quiz_finished || s.question_answered) = true
  · rw [answer_question, if_pos hg] at hs
    obtain rfl : s = s' := by injection hs
    exact h
  · rw [answer_question, if_neg hg] at hs
    cases hq : s.questions[s.current_question]? with
    | none =>
      rw [hq] at hs
      simp at hs
    | some q =>
      rw [hq] at hs
      simp only [Option.some.injEq] at hs
      subst hs
      obtain ⟨h1, h2, h3⟩ := h
      refine ⟨?_, ?_, ?_⟩
      · intro hst hf
        exact h1 hst hf
      · by_cases hc : decide (a = q.gabarito) = true
        · simp [hc, List.countP_append, List.countP_cons, h2]
        · simp [hc, List.countP_append, List.countP_cons, h2]
      · intro r hr
        simp at hr
        rcases hr with hr | hr
        · exact h3 r hr
        · subst hr
          exact ⟨rfl, rfl⟩

theorem sessionInv_next (s : SessionState) (h : SessionInv s) :
    SessionInv (next_question s) := by
  obtain ⟨h1, h2, h3⟩ := h
  unfold next_question
  by_cases hc : s.questions.length ≤ s.current_question + 1
  · simp only [if_pos hc]
    refine ⟨?_, h2, h3⟩
    intro _ hf
    simp at hf
  · simp only [if_neg hc]
    refine ⟨?_, h2, h3⟩
    intro _ _
    show s.current_question + 1 < s.questions.length
    omega

theorem sessionInv_step (a : QuizAction) (s s' : SessionState)
    (h : SessionInv s) (hs : step a s = some s') : SessionInv s' := by
  cases a with
  | start qs =>
    obtain rfl : start_quiz qs s = s' := by injection hs
    exact sessionInv_start qs s h
  | answer l =>
    exact sessionInv_answer l s s' h hs
  | next =>
    obtain rfl : next_question s = s' := by injection hs
    exact sessionInv_next s h
  | reset =>
    obtain rfl : reset_quiz s = s' := by injection hs
    exact sessionInv_initial

theorem sessionInv_run (acts : List QuizAction) (s s' : SessionState)
    (h : SessionInv s) (hr : run_from s acts = some s') : SessionInv s' := by
  induction acts generalizing s with
  | nil =>
    simp only [run_from] at hr
    obtain rfl : s = s' := by injection hr
    exact h
  | cons a rest ih =>
    simp only [run_from] at hr
    cases hstep : step a s with
    | none =>
      rw [hstep] at hr
      simp at hr
    | some s1 =>
      rw [hstep] at hr
      exact ih s1 (sessionInv_step a s s1 h hstep) hr

theorem reachable_inv (s : SessionState) (h : Reachable s) : SessionInv s := by
  obtain ⟨acts, hr⟩ := h
  exact sessionInv_run acts initial_state s sessionInv_initial hr

/-! ### Claim C9: position stays in bounds -/

/-- Claim C9: in every session state reachable from the fresh session by
any sequence of the four operations, if the quiz is started and not
finished then the position index is strictly below the number of selected
questions, so the lookup done by `answer_question` (and by the question
screen) is in bounds and never raises. -/
theorem reachable_current_question_in_bounds (s : SessionState)
    (h : Reachable s) (hstart : s.quiz_started = true)
    (hfin : s.quiz_finished = false) :
    s.current_question < s.questions.length ∧
    ∀ a, answer_question a s ≠ none := by
  have hlt := (reachable_inv s h).1 hstart hfin
  refine ⟨hlt, ?_⟩
  intro a
  rw [answer_question]
  by_cases hg : (s.quiz_finished || s.question_answered) = true
  · rw [if_pos hg]
    simp
  · rw [if_neg hg, List.getElem?_eq_getElem hlt]
    simp

/-- Concrete check of Claim C9 at the reachable state produced by starting
a one-question quiz. -/
theorem reachable_current_question_in_bounds_witness :
    (start_quiz [mkQ 1 ("a")] initial_state).current_question <
      (start_quiz [mkQ 1 ("a")] initial_state).questions.length :=
  (reachable_current_question_in_bounds
    (start_quiz [mkQ 1 ("a")] initial_state)
    ⟨[QuizAction.start [mkQ 1 ("a")]], rfl⟩ (by decide) (by decide)).1

/-! ### Claim C10: the score agrees with the answer log -/

/-- Claim C10: in every reachable session state the correct-answers counter
equals the number of log records whose correctness flag is true, and each
record is flagged correct exactly when its submitted letter equals the
correct-answer key of its question, compared by exact string equality (the
stored correct letter also always is that key). -/
theorem reachable_correct_count_invariant (s : SessionState)
    (h : Reachable s) :
    s.correct_answers =
      (s.user_answers.filter (fun r => r.is_correct)).length ∧
    ∀ r ∈ s.user_answers,
      (r.is_correct = true ↔ r.user_answer = r.question.gabarito) ∧
      r.correct_answer = r.question.gabarito := by
  have hinv := reachable_inv s h
  refine ⟨?_, ?_⟩
  · rw [hinv.2.1]
    exact List.countP_eq_length_filter _ _
  · intro r hr
    obtain ⟨h1, h2⟩ := hinv.2.2 r hr
    refine ⟨?_, h2⟩
    rw [h1]
    simp

/-- Concrete check of Claim C10 at the reachable fresh session. -/
theorem reachable_correct_count_invariant_witness :
    initial_state.correct_answers = 0 := by
  have h := (reachable_correct_count_invariant initial_state ⟨[], rfl⟩).1
  simpa using h

/-! ### Selector helper lemmas -/

theorem shuffled_pool_perm (f : List Question → List Question)
    (hf : ∀ l, (f l).Perm l) (l : List Question) :
    (shuffled_pool f l).Perm l := by
  unfold shuffled_pool
  split
  · exact List.Perm.refl _
  · exact hf l

theorem specific_slice_length (sh : Shuffles) (hf : sh.Fair) (t : Nat)
    (S : List Question) :
    (specific_slice sh t S).length = min (3 * t / 5) S.length := by
  unfold specific_slice
  split
  · rename_i hS
    subst hS
    simp
  · rw [List.length_take, (hf.1 S).length_eq]

theorem general_slice_length (sh : Shuffles) (hf : sh.Fair) (t : Nat)
    (S G : List Question) :
    (general_slice sh t S G).length =
      min (t - (specific_slice sh t S).length) G.length := by
  unfold general_slice
  split
  · rename_i hG
    subst hG
    simp
  · split
    · rw [List.length_take, (hf.2.1 G).length_eq]
    · rename_i hng
      simp only [List.length_nil]
      omega

theorem ratio_selection_length (sh : Shuffles) (hf : sh.Fair) (t : Nat)
    (S G : List Question) :
    (ratio_selection sh t S G).length =
      min (3 * t / 5) S.length +
        min (t - min (3 * t / 5) S.length) G.length := by
  unfold ratio_selection
  rw [List.length_append, general_slice_length sh hf,
    specific_slice_length sh hf]

theorem specific_slice_subset (sh : Shuffles) (hf : sh.Fair) (t : Nat)
    (S : List Question) : ∀ q ∈ specific_slice sh t S, q ∈ S := by
  intro q hq
  unfold specific_slice at hq
  split at hq
  · simp at hq
  · exact (hf.1 S).mem_iff.mp (List.take_subset _ _ hq)

theorem general_slice_subset (sh : Shuffles) (hf : sh.Fair) (t : Nat)
    (S G : List Question) : ∀ q ∈ general_slice sh t S G, q ∈ G := by
  intro q hq
  unfold general_slice at hq
  split at hq
  · simp at hq
  · split at hq
    · exact (hf.2.1 G).mem_iff.mp (List.take_subset _ _ hq)
    · simp at hq

theorem prepare_questions_eq (sh : Shuffles) (N : Nat) (S G : List Question)
    (hne : ¬(S = [] ∧ G = [])) :
    prepare_questions sh N S G =
      sh.shuffle4 (if (ratio_selection sh N S G).length < N then
        (sh.shuffle3 (shuffled_pool sh.shuffle1 S ++
          shuffled_pool sh.shuffle2 G)).take N
      else ratio_selection sh N S G) := by
  unfold prepare_questions
  rw [if_neg hne]

theorem mem_map_id_of_subset {l l' : List Question}
    (hsub : ∀ q ∈ l, q ∈ l') {x : Int} (hx : x ∈ l.map Question.id) :
    x ∈ l'.map Question.id := by
  obtain ⟨q, hq, rfl⟩ := List.mem_map.mp hx
  exact List.mem_map.mpr ⟨q, hsub q hq, rfl⟩

theorem take_of_perm_map_id_nodup {l l' : List Question} (hp : l.Perm l')
    (n : Nat) (h : (l'.map Question.id).Nodup) :
    ((l.take n).map Question.id).Nodup := by
  rw [List.map_take]
  exact ((hp.map Question.id).nodup_iff.mpr h).sublist
    (List.take_sublist _ _)

/-! ### Claim C1: selection size and id-uniqueness -/

/-- Claim C1 fails as stated: nothing deduplicates across the two pools, so
two pools sharing an id (which are not both empty) yield a selection with a
repeated id, although the min(N, totalAvailable) length contract holds. -/
theorem prepare_questions_unique_id_counterexample :
    idShuffles.Fair ∧
    ¬([mkQ 1 ("a")] = [] ∧ [mkQ 1 ("b")] = []) ∧
    (prepare_questions idShuffles 10 [mkQ 1 ("a")] [mkQ 1 ("b")]).map
      Question.id = [1, 1] ∧
    ¬((prepare_questions idShuffles 10 [mkQ 1 ("a")] [mkQ 1 ("b")]).map
      Question.id).Nodup :=
  ⟨idShuffles_fair, by decide, by decide, by decide⟩

/-- Claim C1 amended: for every N in {10,20,30,40,50}, every fair shuffle,
and every pair of pools that is not both-empty whose combined ids are
pairwise distinct, `prepare_questions N` returns a sequence of exactly
min(N, totalAvailable) questions in which every question is unique by id,
where totalAvailable is the combined size of the two pools. -/
theorem prepare_questions_count_and_unique_ids (sh : Shuffles)
    (hf : sh.Fair) (N : Nat)
    (hN : N = 10 ∨ N = 20 ∨ N = 30 ∨ N = 40 ∨ N = 50)
    (S G : List Question) (hne : ¬(S = [] ∧ G = []))
    (hids : ((S ++ G).map Question.id).Nodup) :
    (prepare_questions sh N S G).length = min N (S.length + G.length) ∧
    ((prepare_questions sh N S G).map Question.id).Nodup := by
  have hS1 := shuffled_pool_perm sh.shuffle1 hf.1 S
  have hG1 := shuffled_pool_perm sh.shuffle2 hf.2.1 G
  have hall : (shuffled_pool sh.shuffle1 S ++
      shuffled_pool sh.shuffle2 G).Perm (S ++ G) := hS1.append hG1
  have hids' : (S.map Question.id ++ G.map Question.id).Nodup := by
    rwa [List.map_append] at hids
  obtain ⟨hSid, hGid, hdisj⟩ := List.nodup_append.mp hids'
  rw [prepare_questions_eq sh N S G hne]
  by_cases hshort : (ratio_selection sh N S G).length < N
  · rw [if_pos hshort]
    have h3 : (sh.shuffle3 (shuffled_pool sh.shuffle1 S ++
        shuffled_pool sh.shuffle2 G)).Perm (S ++ G) :=
      (hf.2.2.1 _).trans hall
    constructor
    · rw [(hf.2.2.2 _).length_eq, List.length_take, h3.length_eq,
        List.length_append]
    · exact ((hf.2.2.2 _).map Question.id).nodup_iff.mpr
        (take_of_perm_map_id_nodup h3 N hids)
  · rw [if_neg hshort]
    have hlen := ratio_selection_length sh hf N S G
    constructor
    · rw [(hf.2.2.2 _).length_eq, hlen]
      rw [hlen] at hshort
      omega
    · have h1 : ((specific_slice sh N S).map Question.id).Nodup := by
        unfold specific_slice
        split
        · simp
        · exact take_of_perm_map_id_nodup (hf.1 S) _ hSid
      have h2 : ((general_slice sh N S G).map Question.id).Nodup := by
        unfold general_slice
        split
        · simp
        · split
          · exact take_of_perm_map_id_nodup (hf.2.1 G) _ hGid
          · simp
      have hd : ((specific_slice sh N S).map Question.id).Disjoint
          ((general_slice sh N S G).map Question.id) := by
        intro x hx1 hx2
        exact hdisj (mem_map_id_of_subset (specific_slice_subset sh hf N S) hx1)
          (mem_map_id_of_subset (general_slice_subset sh hf N S G) hx2)
      have hnr : ((ratio_selection sh N S G).map Question.id).Nodup := by
        unfold ratio_selection
        rw [List.map_append]
        exact h1.append h2 hd
      exact ((hf.2.2.2 _).map Question.id).nodup_iff.mpr hnr

/-- Concrete check of the amended Claim C1: two singleton pools with
distinct ids and N = 10 give the full two-question selection. -/
theorem prepare_questions_count_and_unique_ids_witness :
    (prepare_questions idShuffles 10 [mkQ 1 ("a")] [mkQ 2 ("b")]).length =
      min 10 ([mkQ 1 ("a")].length + [mkQ 2 ("b")].length) :=
  (prepare_questions_count_and_unique_ids idShuffles idShuffles_fair 10
    (Or.inl rfl) [mkQ 1 ("a")] [mkQ 2 ("b")] (by decide) (by decide)).1

/-! ### Claim C3: ratio lower bound -/

/-- Claim C3: whenever the specific pool holds at least N·0.6 questions and
the general pool at least N·0.4, the prepared sequence contains at least
floor(N·0.6) questions originating from the specific pool (the fallback is
never taken, and shuffling preserves membership). -/
theorem prepare_questions_specific_lower_bound (sh : Shuffles)
    (hf : sh.Fair) (N : Nat) (S G : List Question)
    (hS : 3 * N ≤ 5 * S.length) (hG : 2 * N ≤ 5 * G.length) :
    3 * N / 5 ≤
      (prepare_questions sh N S G).countP (fun q => decide (q ∈ S)) := by
  by_cases hne : S = [] ∧ G = []
  · obtain ⟨rfl, rfl⟩ := hne
    simp only [List.length_nil, Nat.mul_zero] at hS
    have hN0 : N = 0 := by omega
    subst hN0
    simp [prepare_questions]
  · have hrlen := ratio_selection_length sh hf N S G
    have hnotshort : ¬ (ratio_selection sh N S G).length < N := by
      rw [hrlen]
      omega
    rw [prepare_questions_eq sh N S G hne, if_neg hnotshort,
      (hf.2.2.2 _).countP_eq]
    unfold ratio_selection
    rw [List.countP_append]
    have hlen1 : (specific_slice sh N S).length = 3 * N / 5 := by
      rw [specific_slice_length sh hf]
      omega
    have hfull : (specific_slice sh N S).countP (fun q => decide (q ∈ S)) =
        (specific_slice sh N S).length := by
      rw [List.countP_eq_length]
      intro q hq
      simpa using specific_slice_subset sh hf N S q hq
    omega

/-- Concrete check of Claim C3 at N = 10 with six specific and four general
questions: at least 6 of the selected questions come from the specific
pool. -/
theorem prepare_questions_specific_lower_bound_witness :
    3 * 10 / 5 ≤ (prepare_questions idShuffles 10 sixSpecific
      fourGeneral).countP (fun q => decide (q ∈ sixSpecific)) :=
  prepare_questions_specific_lower_bound idShuffles idShuffles_fair 10
    sixSpecific fourGeneral (by decide) (by decide)

/-! ### Claim C7: fallback -/

/-- Claim C7: whenever the ratio-based draw comes up short of N,
`prepare_questions` discards the partial selection and returns the
concatenation of both (shuffled-in-place) full pools, shuffled and
truncated to the first N elements, followed by the final shuffle of step 5;
under fair shuffles the result is a permutation of that truncation, and the
pre-truncation list is a permutation of the full concatenation of both
pools. -/
theorem prepare_questions_fallback_concat (sh : Shuffles) (N : Nat)
    (S G : List Question) (hne : ¬(S = [] ∧ G = []))
    (hshort : (ratio_selection sh N S G).length < N) :
    prepare_questions sh N S G =
      sh.shuffle4 ((sh.shuffle3 (shuffled_pool sh.shuffle1 S ++
        shuffled_pool sh.shuffle2 G)).take N) ∧
    (sh.Fair →
      (prepare_questions sh N S G).Perm
        ((sh.shuffle3 (shuffled_pool sh.shuffle1 S ++
          shuffled_pool sh.shuffle2 G)).take N) ∧
      (sh.shuffle3 (shuffled_pool sh.shuffle1 S ++
        shuffled_pool sh.shuffle2 G)).Perm (S ++ G)) := by
  have he : prepare_questions sh N S G =
      sh.shuffle4 ((sh.shuffle3 (shuffled_pool sh.shuffle1 S ++
        shuffled_pool sh.shuffle2 G)).take N) := by
    rw [prepare_questions_eq sh N S G hne, if_pos hshort]
  refine ⟨he, fun hf => ⟨?_, ?_⟩⟩
  · rw [he]
    exact hf.2.2.2 _
  · exact (hf.2.2.1 _).trans
      ((shuffled_pool_perm sh.shuffle1 hf.1 S).append
        (shuffled_pool_perm sh.shuffle2 hf.2.1 G))

/-- Concrete check of Claim C7: two singleton pools and N = 10 trigger the
fallback, and the result is the truncated shuffled concatenation. -/
theorem prepare_questions_fallback_concat_witness :
    prepare_questions idShuffles 10 [mkQ 1 ("a")] [mkQ 2 ("b")] =
      idShuffles.shuffle4 ((idShuffles.shuffle3 (shuffled_pool
        idShuffles.shuffle1 [mkQ 1 ("a")] ++ shuffled_pool
        idShuffles.shuffle2 [mkQ 2 ("b")])).take 10) :=
  (prepare_questions_fallback_concat idShuffles 10 [mkQ 1 ("a")]
    [mkQ 2 ("b")] (by decide) (by decide)).1
